import Mathlib

/-!
Verification of the vuelit component runtime (`src/index.ts`).

We give a shallow embedding of the runtime's core logic:
JavaScript values (including Vue reference cells, modelled as heap
addresses), the ref resolver applied to lit-html render results, the
per-instance props bridge, the dependency-injection table with its
DOM-ancestor walk, the lifecycle callback dispatcher, the render
effect body, and the ambient `currentInstance` pointer used by the
free-function helpers.  Console diagnostics (`console.warn`,
`console.error`) are modelled as counters.
-/

namespace Vuelit

/-- JavaScript values as used by the runtime.  A Vue reference cell
(`ref`) is modelled as an address into an explicit heap, so that
`isRef` and `.value` dereferencing are faithful. -/
inductive JSVal where
  | undefined : JSVal
  | null : JSVal
  | bool : Bool → JSVal
  | num : Int → JSVal
  | str : String → JSVal
  | ref : Nat → JSVal
deriving DecidableEq, Repr

/-- JavaScript truthiness of a value. -/
def truthy : JSVal → Bool
  | JSVal.undefined => false
  | JSVal.null => false
  | JSVal.bool b => b
  | JSVal.num n => n != 0
  | JSVal.str s => s != ""
  | JSVal.ref _ => true

/-- Vue's `isRef` predicate. -/
def isRef : JSVal → Bool
  | JSVal.ref _ => true
  | _ => false

/-- The heap of reference cells: cell `r` currently holds `h.getD r undefined`. -/
abbrev Heap := List JSVal

/-- Reading `x.value` of a reference cell (identity on non-refs; the
runtime only applies it behind an `isRef` guard). -/
def refValue (h : Heap) : JSVal → JSVal
  | JSVal.ref r => h.getD r JSVal.undefined
  | v => v

/-- Writing `x.value` of a reference cell. -/
def refWrite (h : Heap) : JSVal → JSVal → Heap
  | JSVal.ref r, v => h.set r v
  | _, _ => h

/-- A lit-html render result: static template strings plus the flat
list of interpolated values (`TemplateResult.values`). -/
structure RenderResult where
  strings : List String
  values : List JSVal
deriving DecidableEq, Repr

/-- `#resolveRefs` from `src/index.ts`: spread the render result into a
fresh object, mapping each interpolated value through
`isRef(value) ? value.value : value`. -/
def resolveRefs (h : Heap) (rr : RenderResult) : RenderResult :=
  { rr with values := rr.values.map (fun value => if isRef value then refValue h value else value) }

/-- Association-list lookup (`Map.get` / object property read). -/
def assocGet {α β : Type} [DecidableEq α] : List (α × β) → α → Option β
  | [], _ => none
  | (k, v) :: rest, key => if k = key then some v else assocGet rest key

/-- Association-list update (`Map.set` / object property write):
overwrites the binding when the key is present, appends otherwise. -/
def assocSet {α β : Type} [DecidableEq α] : List (α × β) → α → β → List (α × β)
  | [], key, v => [(key, v)]
  | (k, w) :: rest, key, v =>
      if k = key then (key, v) :: rest else (k, w) :: assocSet rest key v

theorem assocGet_assocSet_same {α β : Type} [DecidableEq α]
    (l : List (α × β)) (k : α) (v : β) : assocGet (assocSet l k v) k = some v := by
  induction l with
  | nil => simp [assocSet, assocGet]
  | cons hd tl ih =>
      obtain ⟨k', v'⟩ := hd
      by_cases hk : k' = k
      · simp [assocSet, hk, assocGet]
      · simp [assocSet, hk, assocGet, ih]

theorem assocGet_assocSet_other {α β : Type} [DecidableEq α]
    (l : List (α × β)) (k k' : α) (v : β) (hne : k' ≠ k) :
    assocGet (assocSet l k v) k' = assocGet l k' := by
  induction l with
  | nil => simp [assocSet, assocGet, Ne.symm hne]
  | cons hd tl ih =>
      obtain ⟨a, b⟩ := hd
      by_cases ha : a = k
      · subst ha
        simp [assocSet, assocGet, Ne.symm hne]
      · simp [assocSet, ha, assocGet, ih]

/-- A property-definition map (`propDefs`): property name to default
value.  Its keys are distinct, as they come from a JavaScript object. -/
abbrev PropDefs := List (String × JSVal)

/-- Per-instance state installed by `#initProps`: the list of accessor
properties defined on the instance, and the `#props` shallow-reactive
container they are backed by. -/
structure PropsState where
  accessors : List String
  container : List (String × JSVal)
deriving DecidableEq, Repr

/-- One iteration of the `forEach` in `#initProps`: define the
get/set accessor for `prop`, then run `this[prop] = propDefs[prop]`,
which goes through the setter and writes the default into `#props`. -/
def initPropsStep (st : PropsState) (pd : String × JSVal) : PropsState :=
  { accessors := st.accessors ++ [pd.1]
    container := assocSet st.container pd.1 pd.2 }

/-- `#initProps` from `src/index.ts`, starting from no accessors and an
empty `#props` container. -/
def initProps (defs : PropDefs) : PropsState :=
  defs.foldl initPropsStep { accessors := [], container := [] }

/-- Reading an instance accessor: the getter returns `this.#props[prop]`. -/
def readProp (st : PropsState) (prop : String) : Option JSVal :=
  assocGet st.container prop

/-- Writing an instance accessor: the setter runs `this.#props[prop] = value`. -/
def writeProp (st : PropsState) (prop : String) (value : JSVal) : PropsState :=
  { st with container := assocSet st.container prop value }

/-- `static get observedAttributes()`: `Object.keys(propDefs)`. -/
def observedAttributes (defs : PropDefs) : List String :=
  defs.map Prod.fst

/-- `attributeChangedCallback`: writes the new attribute value (a
string) straight into the reactive `#props` container. -/
def attributeChangedCallback (st : PropsState) (attrName : String) (newValue : String) : PropsState :=
  { st with container := assocSet st.container attrName (JSVal.str newValue) }

/-- A per-instance dependency table (`#context`), keyed by symbols
(modelled as naturals). -/
abbrev Ctx := List (Nat × JSVal)

/-- `provide` (instance method): `this.#context.set(key, value)`. -/
def ctxProvide (ctx : Ctx) (key : Nat) (value : JSVal) : Ctx :=
  assocSet ctx key value

/-- A node on the DOM parent chain above an instance: either another
vuelit component (it has an `inject` method and its own `#context` and
its own parent chain continues to the right), or a plain DOM node. -/
inductive Entry where
  | comp : Ctx → Entry
  | plain : Entry
deriving DecidableEq, Repr

/-- The `get` walk of `inject` skips nodes with no `inject` method and
delegates to the first component found, together with the chain that
remains above it. -/
def firstComp : List Entry → Option (Ctx × List Entry)
  | [] => none
  | Entry.plain :: rest => firstComp rest
  | Entry.comp c :: rest => some (c, rest)

theorem firstComp_length : ∀ {chain : List Entry} {c : Ctx} {rest : List Entry},
    firstComp chain = some (c, rest) → rest.length < chain.length := by
  intro chain
  induction chain with
  | nil => intro c rest h; simp [firstComp] at h
  | cons hd tl ih =>
      intro c rest h
      cases hd with
      | plain =>
          have : rest.length < tl.length := ih (by simpa [firstComp] using h)
          exact Nat.lt_trans this (Nat.lt_succ_self _)
      | comp c' =>
          simp [firstComp] at h
          simp [h.2.symm, Nat.lt_succ_self]

/-- `defaultValue || null` from `inject`: `none` stands for the
JavaScript `undefined` of an omitted parameter. -/
def defaultOrNull : Option JSVal → JSVal
  | some d => if truthy d then d else JSVal.null
  | none => JSVal.null

/-- The `inject` instance method (with the optional `defaultValue`
parameter).  Returns the injected value together with the number of
`console.warn` diagnostics the call emits.  Mirrors the source: local
`#context` hit returns directly; otherwise the `get` walk delegates to
the nearest ancestor component's `inject(key)` (with no default) or
returns `defaultValue || null` at the top of the tree; a falsy result
then falls back on `defaultValue` (warning when none was supplied). -/
def instInject (key : Nat) (dflt : Option JSVal) (ctx : Ctx) (chain : List Entry) : JSVal × Nat :=
  match assocGet ctx key with
  | some v => (v, 0)
  | none =>
    let result : JSVal × Nat :=
      match hfc : firstComp chain with
      | some (c, rest) => instInject key none c rest
      | none => (defaultOrNull dflt, 0)
    if truthy result.1 then result
    else
      match dflt with
      | none => (JSVal.null, result.2 + 1)
      | some d => (defaultOrNull (some d), result.2)
termination_by chain.length
decreasing_by exact firstComp_length hfc

/-- The five lifecycle registration points. -/
inductive Method where
  | onBeforeMount | onMounted | onBeforeUpdate | onUpdated | onUnmounted
deriving DecidableEq, Repr

/-- The per-instance `#callbacks` storage.  Callbacks are identified by
opaque tokens (naturals); each list keeps registration order. -/
structure Callbacks where
  onBeforeMount : List Nat
  onMounted : List Nat
  onBeforeUpdate : List Nat
  onUpdated : List Nat
  onUnmounted : List Nat
deriving DecidableEq, Repr

/-- `registerLifecycleCallback`: append to the list for the given method. -/
def registerLifecycleCallback (c : Callbacks) : Method → Nat → Callbacks
  | Method.onBeforeMount, cb => { c with onBeforeMount := c.onBeforeMount ++ [cb] }
  | Method.onMounted, cb => { c with onMounted := c.onMounted ++ [cb] }
  | Method.onBeforeUpdate, cb => { c with onBeforeUpdate := c.onBeforeUpdate ++ [cb] }
  | Method.onUpdated, cb => { c with onUpdated := c.onUpdated ++ [cb] }
  | Method.onUnmounted, cb => { c with onUnmounted := c.onUnmounted ++ [cb] }

/-- Observable events of a component instance's construction and
rendering, in execution order. -/
inductive Event where
  | propsInit
  | instanceSet
  | setupCall
  | instanceClear
  | beforeMountCall : Nat → Event
  | beforeUpdateCall : Nat → Event
  | render : RenderResult → Event
  | updatedCall : Nat → Event
  | stylesAttach
deriving DecidableEq, Repr

/-- One execution of the body of `effect(() => ...)` in the
constructor: before-update callbacks when `isMounted`, then
`render(this.#resolveRefs(template()), root)`, then updated callbacks
when `isMounted`, else `isMounted = true`.  Returns the event trace of
the execution and the new value of `isMounted`.  The heap and the
template result are held fixed, since only hook ordering is at stake. -/
def effectRun (cbs : Callbacks) (h : Heap) (tpl : RenderResult) (isMounted : Bool) :
    List Event × Bool :=
  ((if isMounted then cbs.onBeforeUpdate.map Event.beforeUpdateCall else [])
    ++ [Event.render (resolveRefs h tpl)]
    ++ (if isMounted then cbs.onUpdated.map Event.updatedCall else []),
   if isMounted then isMounted else true)

/-- The traces of `n` successive executions of the render effect,
threading the `isMounted` flag. -/
def effectRuns (cbs : Callbacks) (h : Heap) (tpl : RenderResult) :
    Nat → Bool → List (List Event)
  | 0, _ => []
  | n + 1, m =>
      let r := effectRun cbs h tpl m
      r.1 :: effectRuns cbs h tpl n r.2

/-- The event trace of the constructor in `src/index.ts`:
`#initProps()`; `#initTemplate()` (set `currentInstance`, call the
factory, clear it); the before-mount callbacks; `#initStyles` when the
`styles` option is set; then `effect(...)`, whose establishment runs
its body once with `isMounted = false`. -/
def constructorTrace (cbs : Callbacks) (hasStyles : Bool) (h : Heap) (tpl : RenderResult) :
    List Event :=
  [Event.propsInit, Event.instanceSet, Event.setupCall, Event.instanceClear]
  ++ cbs.onBeforeMount.map Event.beforeMountCall
  ++ (if hasStyles then [Event.stylesAttach] else [])
  ++ (effectRun cbs h tpl false).1

/-- Modelled from the spec: the construction order the specification
prescribes, namely property-bridge initialization, pointer set, setup
call, pointer clear, before-mount hooks, render-effect establishment
(first render), and style injection last. -/
def specOrderTrace (cbs : Callbacks) (hasStyles : Bool) (h : Heap) (tpl : RenderResult) :
    List Event :=
  [Event.propsInit, Event.instanceSet, Event.setupCall, Event.instanceClear]
  ++ cbs.onBeforeMount.map Event.beforeMountCall
  ++ (effectRun cbs h tpl false).1
  ++ (if hasStyles then [Event.stylesAttach] else [])

/-- The constructor trace annotated, at every step, with the value the
module-level `currentInstance` pointer holds while that step runs:
`null` before `#initTemplate`, `this` exactly across the factory call,
and `null` from then on. -/
def constructorPtrTrace (inst : Nat) (cbs : Callbacks) (hasStyles : Bool)
    (h : Heap) (tpl : RenderResult) : List (Event × Option Nat) :=
  [(Event.propsInit, none), (Event.setupCall, some inst)]
  ++ cbs.onBeforeMount.map (fun cb => (Event.beforeMountCall cb, none))
  ++ (if hasStyles then [(Event.stylesAttach, (none : Option Nat))] else [])
  ++ (effectRun cbs h tpl false).1.map (fun e => (e, none))

/-- The module-level mutable state outside any instance: the
`currentInstance` pointer and the number of `console.error` /
`console.warn` diagnostics emitted so far. -/
structure Glob where
  currentInstance : Option Nat
  errors : Nat
  warnings : Nat
deriving DecidableEq, Repr

/-- `getCurrentInstance()`: `console.error` when the pointer is unset,
then return the pointer either way. -/
def getCurrentInstance (g : Glob) : Option Nat × Glob :=
  match g.currentInstance with
  | none => (none, { g with errors := g.errors + 1 })
  | some i => (some i, g)

/-- The callback tables of all live instances, keyed by instance id. -/
abbrev CallbackStore := List (Nat × Callbacks)

/-- Registration against the instance the pointer designates. -/
def storeRegister (store : CallbackStore) (i : Nat) (m : Method) (cb : Nat) : CallbackStore :=
  store.map (fun e => if e.1 = i then (e.1, registerLifecycleCallback e.2 m cb) else e)

/-- A free-function lifecycle helper produced by
`createLifecycleMethod`: `currentInstance?.registerLifecycleCallback(name, callback)`.
When the pointer is unset the optional chaining makes the whole call a
no-op, with no diagnostic. -/
def lifecycleFree (g : Glob) (store : CallbackStore) (m : Method) (cb : Nat) :
    Glob × CallbackStore :=
  match g.currentInstance with
  | none => (g, store)
  | some i => (g, storeRegister store i m cb)

/-- The dependency tables of all live instances, keyed by instance id. -/
abbrev CtxStore := List (Nat × Ctx)

/-- The free `provide` function: `getCurrentInstance()` (which reports
when the pointer is unset), then `currentInstance?.provide(key, value)`
when an instance was found. -/
def provideFree (g : Glob) (store : CtxStore) (key : Nat) (value : JSVal) :
    Glob × CtxStore :=
  let gi := getCurrentInstance g
  match gi.1 with
  | none => (gi.2, store)
  | some i => (gi.2, store.map (fun e => if e.1 = i then (e.1, ctxProvide e.2 key value) else e))

/-- The free `inject` function: `getCurrentInstance()`, then
`instance.inject(key)` — the default is not forwarded — or, with no
instance, return `defaultValue`.  The current instance's own table and
parent chain are passed explicitly. -/
def injectFree (g : Glob) (ctx : Ctx) (chain : List Entry) (key : Nat) (dflt : Option JSVal) :
    Option JSVal × Glob :=
  let gi := getCurrentInstance g
  match gi.1 with
  | none => (dflt, gi.2)
  | some _ =>
      let r := instInject key none ctx chain
      (some r.1, { gi.2 with warnings := gi.2.warnings + r.2 })

/-- The event handler returned by `update(reference)`, applied to an
input event whose target's value is `targetValue`: when the reference
is a ref cell, assign the target's value to `reference.value`;
otherwise `console.warn` and change nothing.  Returns the new heap and
warning count. -/
def updateHandler (reference : JSVal) (targetValue : String) (h : Heap) (w : Nat) :
    Heap × Nat :=
  if isRef reference then
    (refWrite h reference (JSVal.str targetValue), w)
  else
    (h, w + 1)

theorem getD_map {α β : Type} (f : α → β) (d : α) :
    ∀ (l : List α) (i : Nat), i < l.length → (l.map f).getD i (f d) = f (l.getD i d) := by
  intro l
  induction l with
  | nil => intro i hi; simp at hi
  | cons hd tl ih =>
      intro i hi
      cases i with
      | zero => simp [List.getD]
      | succ j =>
          have hj : j < tl.length := by simpa using hi
          simpa [List.getD] using ih j hj

theorem resolveRefs_getD (h : Heap) (rr : RenderResult) (i : Nat)
    (hi : i < rr.values.length) :
    (resolveRefs h rr).values.getD i JSVal.undefined =
      (if isRef (rr.values.getD i JSVal.undefined)
       then refValue h (rr.values.getD i JSVal.undefined)
       else rr.values.getD i JSVal.undefined) := by
  have hu : (if isRef JSVal.undefined then refValue h JSVal.undefined else JSVal.undefined)
      = JSVal.undefined := by simp [isRef]
  have := getD_map (fun value => if isRef value then refValue h value else value)
      JSVal.undefined rr.values i hi
  simpa [resolveRefs, hu] using this

/-- C4: `#resolveRefs` is a pure transform of the render result.  It
keeps the static strings, keeps the length (and hence the positional
order) of the interpolated-values list, and maps each slot to the ref
cell's current value when the slot holds a ref cell and to the
unchanged original value otherwise.  (The embedding is functional: the
source builds a fresh object with spread syntax and `Array.map`, never
touching its input.) -/
theorem resolveRefs_pure (h : Heap) (rr : RenderResult) :
    (resolveRefs h rr).strings = rr.strings
    ∧ (resolveRefs h rr).values.length = rr.values.length
    ∧ (∀ i : Nat, i < rr.values.length →
        (resolveRefs h rr).values.getD i JSVal.undefined =
          (if isRef (rr.values.getD i JSVal.undefined)
           then refValue h (rr.values.getD i JSVal.undefined)
           else rr.values.getD i JSVal.undefined)) :=
  ⟨rfl, by simp [resolveRefs], fun i hi => resolveRefs_getD h rr i hi⟩

/-- C4 witness: the specification's example, interpolated values
`[refCell(5), "x", refCell(plain)]` resolving slot by slot to
`[5, "x", plain]`. -/
theorem resolveRefs_pure_witness :
    (resolveRefs [JSVal.num 5, JSVal.str "plain"]
        { strings := ["a", "b", "c", "d"],
          values := [JSVal.ref 0, JSVal.str "x", JSVal.ref 1] }).values.getD 0 JSVal.undefined
      = (if isRef (([JSVal.ref 0, JSVal.str "x", JSVal.ref 1] : List JSVal).getD 0 JSVal.undefined)
         then refValue [JSVal.num 5, JSVal.str "plain"]
            (([JSVal.ref 0, JSVal.str "x", JSVal.ref 1] : List JSVal).getD 0 JSVal.undefined)
         else ([JSVal.ref 0, JSVal.str "x", JSVal.ref 1] : List JSVal).getD 0 JSVal.undefined) :=
  (resolveRefs_pure [JSVal.num 5, JSVal.str "plain"]
    { strings := ["a", "b", "c", "d"],
      values := [JSVal.ref 0, JSVal.str "x", JSVal.ref 1] }).2.2 0 (by decide)

/-- C10: unwrapping at the render-result boundary is exactly one level
deep.  When a slot holds a ref cell `a` whose contained value is itself
a ref cell `b`, the resolved slot is the inner cell `b` (still a ref),
not the inner cell's contained value. -/
theorem resolveRefs_one_level (h : Heap) (rr : RenderResult) (i a b : Nat)
    (hi : i < rr.values.length)
    (hv : rr.values.getD i JSVal.undefined = JSVal.ref a)
    (hh : h.getD a JSVal.undefined = JSVal.ref b) :
    (resolveRefs h rr).values.getD i JSVal.undefined = JSVal.ref b
    ∧ isRef ((resolveRefs h rr).values.getD i JSVal.undefined) = true := by
  have hs := resolveRefs_getD h rr i hi
  rw [hv] at hs
  simp [isRef, refValue] at hs
  have hh' : h[a]?.getD JSVal.undefined = JSVal.ref b := by
    simpa [List.getD] using hh
  rw [hh'] at hs
  have hg : (resolveRefs h rr).values.getD i JSVal.undefined = JSVal.ref b := by
    simpa [List.getD] using hs
  exact ⟨hg, by rw [hg]; rfl⟩

/-- C10 witness: a heap where cell 0 holds cell 1 and cell 1 holds 7;
resolving a render result whose single slot is cell 0 yields cell 1. -/
theorem resolveRefs_one_level_witness :
    (resolveRefs [JSVal.ref 1, JSVal.num 7]
        { strings := ["s"], values := [JSVal.ref 0] }).values.getD 0 JSVal.undefined
      = JSVal.ref 1
    ∧ isRef ((resolveRefs [JSVal.ref 1, JSVal.num 7]
        { strings := ["s"], values := [JSVal.ref 0] }).values.getD 0 JSVal.undefined) = true :=
  resolveRefs_one_level [JSVal.ref 1, JSVal.num 7]
    { strings := ["s"], values := [JSVal.ref 0] } 0 0 1
    (by decide) (by decide) (by decide)

theorem effectRuns_mounted (cbs : Callbacks) (h : Heap) (tpl : RenderResult) :
    ∀ n : Nat, effectRuns cbs h tpl n true =
      List.replicate n
        (cbs.onBeforeUpdate.map Event.beforeUpdateCall
          ++ [Event.render (resolveRefs h tpl)]
          ++ cbs.onUpdated.map Event.updatedCall) := by
  intro n
  induction n with
  | zero => simp [effectRuns]
  | succ m ih => simp [effectRuns, effectRun, ih, List.replicate_succ]

/-- C1: each execution of the render effect runs before-update
callbacks only when it is not the first execution, then renders the
ref-resolved template result, then runs updated callbacks when it is
not the first execution and otherwise sets the first-execution flag;
hence over any sequence of executions starting fresh, the first pass
has no hooks and every later pass is bracketed by all registered
before-update and updated callbacks in registration order. -/
theorem effect_hook_ordering (cbs : Callbacks) (h : Heap) (tpl : RenderResult) (n : Nat) :
    effectRun cbs h tpl false = ([Event.render (resolveRefs h tpl)], true)
    ∧ effectRun cbs h tpl true =
        (cbs.onBeforeUpdate.map Event.beforeUpdateCall
          ++ [Event.render (resolveRefs h tpl)]
          ++ cbs.onUpdated.map Event.updatedCall, true)
    ∧ effectRuns cbs h tpl (n + 1) false =
        [Event.render (resolveRefs h tpl)]
          :: List.replicate n
              (cbs.onBeforeUpdate.map Event.beforeUpdateCall
                ++ [Event.render (resolveRefs h tpl)]
                ++ cbs.onUpdated.map Event.updatedCall) := by
  refine ⟨by simp [effectRun], by simp [effectRun], ?_⟩
  simp [effectRuns, effectRun, effectRuns_mounted]

theorem initProps_foldl_accessors (defs : PropDefs) :
    ∀ st : PropsState,
      (defs.foldl initPropsStep st).accessors = st.accessors ++ defs.map Prod.fst := by
  induction defs with
  | nil => intro st; simp
  | cons hd tl ih =>
      intro st
      simp [initPropsStep, ih, List.append_assoc]

theorem initProps_foldl_notMem (defs : PropDefs) (p : String)
    (hp : p ∉ defs.map Prod.fst) :
    ∀ st : PropsState,
      assocGet (defs.foldl initPropsStep st).container p = assocGet st.container p := by
  induction defs with
  | nil => intro st; simp
  | cons hd tl ih =>
      intro st
      have hph : p ≠ hd.1 := by
        intro hc; exact hp (by simp [hc])
      have hpt : p ∉ tl.map Prod.fst := by
        intro hc; exact hp (by simp [hc])
      rw [List.foldl_cons, ih hpt]
      simp [initPropsStep, assocGet_assocSet_other _ _ _ _ hph]

theorem initProps_foldl_mem (defs : PropDefs) (p : String) (d : JSVal)
    (hmem : (p, d) ∈ defs) (hnd : (defs.map Prod.fst).Nodup) :
    ∀ st : PropsState,
      assocGet (defs.foldl initPropsStep st).container p = some d := by
  induction defs with
  | nil => simp at hmem
  | cons hd tl ih =>
      intro st
      rcases List.mem_cons.mp hmem with heq | htl
      · subst heq
        have hpt : p ∉ tl.map Prod.fst := by
          have := (List.nodup_cons.mp hnd).1
          simpa using this
        rw [List.foldl_cons, initProps_foldl_notMem tl p hpt]
        simp [initPropsStep, assocGet_assocSet_same]
      · rw [List.foldl_cons]
        exact ih htl (List.nodup_cons.mp hnd).2 _

/-- C2: after `#initProps`, the instance's accessor list is exactly the
key list of the property-definition map and each accessor initially
reads the map's default value; accessor reads and writes go through
the backing `#props` container (read-after-write returns the written
value and leaves other keys alone); `observedAttributes` is exactly
the key list; and the empty map yields no accessors and no observed
attributes. -/
theorem initProps_bridge (defs : PropDefs) (hnd : (defs.map Prod.fst).Nodup) :
    (initProps defs).accessors = defs.map Prod.fst
    ∧ (∀ p d, (p, d) ∈ defs → readProp (initProps defs) p = some d)
    ∧ (∀ st p v, readProp (writeProp st p v) p = some v)
    ∧ (∀ st p q v, q ≠ p → readProp (writeProp st p v) q = readProp st q)
    ∧ observedAttributes defs = defs.map Prod.fst
    ∧ (initProps []).accessors = [] ∧ observedAttributes [] = [] := by
  refine ⟨?_, ?_, ?_, ?_, rfl, rfl, rfl⟩
  · simpa using initProps_foldl_accessors defs { accessors := [], container := [] }
  · intro p d hmem
    exact initProps_foldl_mem defs p d hmem hnd { accessors := [], container := [] }
  · intro st p v
    simp [readProp, writeProp, assocGet_assocSet_same]
  · intro st p q v hq
    simp [readProp, writeProp, assocGet_assocSet_other _ _ _ _ hq]

/-- C2 witness: the README example map, a single property
`counter = 0`: one accessor, initial read `0`, one observed attribute. -/
theorem initProps_bridge_witness :
    (initProps [("counter", JSVal.num 0)]).accessors = [("counter", JSVal.num 0)].map Prod.fst
    ∧ readProp (initProps [("counter", JSVal.num 0)]) "counter" = some (JSVal.num 0)
    ∧ observedAttributes [("counter", JSVal.num 0)] = ["counter"] := by
  have h := initProps_bridge [("counter", JSVal.num 0)] (by decide)
  exact ⟨h.1, h.2.1 "counter" (JSVal.num 0) (by decide), by decide⟩

/-- C6: `provide(key, value)` sets the binding in the instance's local
dependency table unconditionally, overwriting any existing binding
(last provide wins), and `provide(k, v)` followed immediately by
`inject(k)` on the same instance returns `v` (with no diagnostic),
whatever the surrounding DOM chain. -/
theorem provide_inject_same_instance (ctx : Ctx) (k : Nat) (v : JSVal) (chain : List Entry) :
    assocGet (ctxProvide ctx k v) k = some v
    ∧ (∀ v0 : JSVal, assocGet (ctxProvide (ctxProvide ctx k v0) k v) k = some v)
    ∧ instInject k none (ctxProvide ctx k v) chain = (v, 0) := by
  have hga := assocGet_assocSet_same ctx k v
  refine ⟨hga, fun v0 => assocGet_assocSet_same _ k v, ?_⟩
  rw [instInject]
  simp [ctxProvide, hga]

/-- C3: the code contradicts the claim (and its own doc comment) when
the nearest provided value is falsy.  With a child whose local table is
empty, a parent component providing `key 0 ↦ false`, and no default,
`inject(0)` returns `null` and emits one "key not found" warning,
instead of returning the ancestor's bound value `false` — the
`if (!result)` truthiness test and `defaultValue || null` discard falsy
results.  The second conjunct shows the ancestor's binding is present;
the third shows a falsy supplied default (`0`) is likewise replaced by
`null`. -/
theorem inject_falsy_values_lost :
    instInject 0 none [] [Entry.comp [(0, JSVal.bool false)]] = (JSVal.null, 1)
    ∧ assocGet ([(0, JSVal.bool false)] : Ctx) 0 = some (JSVal.bool false)
    ∧ instInject 0 (some (JSVal.num 0)) [] [] = (JSVal.null, 0) := by
  refine ⟨?_, by simp [assocGet], ?_⟩
  · rw [instInject]
    simp [firstComp, assocGet]
    rw [instInject]
    simp [assocGet, truthy]
  · rw [instInject]
    simp [firstComp, assocGet, defaultOrNull, truthy]

/-- C5 counterexample: with no registered callbacks and the `styles`
option set, the constructor's event trace differs from the order the
claim prescribes — the source injects styles before establishing the
render effect, while the claim puts style injection last. -/
theorem constructor_order_cex :
    constructorTrace
        { onBeforeMount := [], onMounted := [], onBeforeUpdate := [],
          onUpdated := [], onUnmounted := [] } true [] { strings := [], values := [] }
      ≠ specOrderTrace
        { onBeforeMount := [], onMounted := [], onBeforeUpdate := [],
          onUpdated := [], onUnmounted := [] } true [] { strings := [], values := [] } := by
  decide

/-- C5 (amended): per-instance construction is strictly sequenced as
property-bridge initialization, ambient-instance-pointer set, setup
call, pointer clear, before-mount hooks, then optional style injection
into the render root, and then render-effect establishment, whose
first execution renders the ref-resolved template result with no
update hooks. -/
theorem constructor_order (cbs : Callbacks) (hs : Bool) (h : Heap) (tpl : RenderResult) :
    constructorTrace cbs hs h tpl =
      [Event.propsInit, Event.instanceSet, Event.setupCall, Event.instanceClear]
      ++ cbs.onBeforeMount.map Event.beforeMountCall
      ++ (if hs then [Event.stylesAttach] else [])
      ++ [Event.render (resolveRefs h tpl)] := by
  simp [constructorTrace, effectRun]

/-- C9: the handler returned by `update(reference)` writes the event
target's value into the cell when the reference is a ref cell (without
a diagnostic), and otherwise warns once and leaves the heap untouched. -/
theorem update_two_way (reference : JSVal) (tv : String) (h : Heap) (w : Nat) :
    (∀ cell : Nat, reference = JSVal.ref cell →
        updateHandler reference tv h w = (h.set cell (JSVal.str tv), w))
    ∧ (isRef reference = false → updateHandler reference tv h w = (h, w + 1)) := by
  constructor
  · intro cell hc
    subst hc
    simp [updateHandler, isRef, refWrite]
  · intro hnr
    simp [updateHandler, hnr]

/-- C9 witness: writing through a ref cell updates the heap and adds no
warning; a plain string reference produces one warning and no write. -/
theorem update_two_way_witness :
    updateHandler (JSVal.ref 0) "abc" [JSVal.num 1] 0 = ([JSVal.str "abc"], 0)
    ∧ updateHandler (JSVal.str "x") "abc" [JSVal.num 1] 0 = ([JSVal.num 1], 1) :=
  ⟨(update_two_way (JSVal.ref 0) "abc" [JSVal.num 1] 0).1 0 rfl,
   (update_two_way (JSVal.str "x") "abc" [JSVal.num 1] 0).2 rfl⟩

theorem constructorPtrTrace_shape (inst : Nat) (cbs : Callbacks) (hs : Bool)
    (h : Heap) (tpl : RenderResult) :
    ∀ pr ∈ constructorPtrTrace inst cbs hs h tpl,
      pr = (Event.setupCall, some inst) ∨ (pr.2 = none ∧ pr.1 ≠ Event.setupCall) := by
  intro pr hmem
  simp [constructorPtrTrace, effectRun] at hmem
  rcases hmem with h1 | h2 | h3 | h4 | h5
  · exact Or.inr (by simp [h1])
  · exact Or.inl (by simp [h2])
  · obtain ⟨cb, _, hpr⟩ := h3
    exact Or.inr (by simp [hpr.symm])
  · rcases hs with _ | _ <;> simp at h4
    exact Or.inr (by simp [h4])
  · exact Or.inr (by simp [h5])

/-- C7 counterexample: a use of the ambient pointer outside the setup
window that is silently tolerated, contradicting the claim that any
such use is signaled.  Calling the free-function `onBeforeMount` helper
with the pointer unset leaves the diagnostics counters and the
callback stores untouched: no signal of any kind is produced. -/
theorem currentInstance_silent_use_cex :
    lifecycleFree { currentInstance := none, errors := 0, warnings := 0 } []
        Method.onBeforeMount 0
      = ({ currentInstance := none, errors := 0, warnings := 0 }, []) := by
  decide

/-- C7 (amended): the ambient current-instance pointer is non-null
exactly across the synchronous setup-function call — in the annotated
constructor trace, a step sees the pointer set if and only if it is the
setup call; `getCurrentInstance` outside the window signals with a
diagnostic and returns the absent pointer; the free lifecycle helpers'
direct uses of the pointer outside the window are silent no-ops. -/
theorem currentInstance_window (inst : Nat) (cbs : Callbacks) (hs : Bool)
    (h : Heap) (tpl : RenderResult) (g : Glob) (store : CallbackStore)
    (m : Method) (cb : Nat) (hg : g.currentInstance = none) :
    (∀ e : Event, ∀ p : Option Nat,
        (e, p) ∈ constructorPtrTrace inst cbs hs h tpl →
          (p = some inst ↔ e = Event.setupCall))
    ∧ getCurrentInstance g = (none, { g with errors := g.errors + 1 })
    ∧ lifecycleFree g store m cb = (g, store) := by
  refine ⟨?_, by simp [getCurrentInstance, hg], by simp [lifecycleFree, hg]⟩
  intro e p hmem
  rcases constructorPtrTrace_shape inst cbs hs h tpl (e, p) hmem with hc | hc
  · simp at hc
    simp [hc.1, hc.2]
  · simp at hc
    constructor
    · intro hp; exact absurd hp (by simp [hc.1])
    · intro he; exact absurd he hc.2

/-- C7 witness: the amended statement at a concrete instance — in the
trace of a one-callback component the pointer is set only at the setup
step, and `getCurrentInstance` on an unset pointer errors once. -/
theorem currentInstance_window_witness :
    ((some 3 : Option Nat) = some 3 ↔ Event.setupCall = Event.setupCall)
    ∧ getCurrentInstance { currentInstance := none, errors := 4, warnings := 0 }
        = (none, { currentInstance := none, errors := 5, warnings := 0 }) := by
  have h := currentInstance_window 3
      { onBeforeMount := [7], onMounted := [], onBeforeUpdate := [],
        onUpdated := [], onUnmounted := [] } false [] { strings := [], values := [] }
      { currentInstance := none, errors := 4, warnings := 0 } [] Method.onMounted 1 rfl
  exact ⟨h.1 Event.setupCall (some 3) (by decide), h.2.1⟩

/-- C8 counterexample: the claim says every free-function helper called
with no ambient instance is reported with a diagnostic, but the free
`onMounted` helper (built by `createLifecycleMethod`) no-ops through
optional chaining without reporting anything: the error and warning
counters stay unchanged. -/
theorem lifecycle_helper_no_diagnostic_cex :
    lifecycleFree { currentInstance := none, errors := 2, warnings := 3 }
        [(1, { onBeforeMount := [], onMounted := [], onBeforeUpdate := [],
               onUpdated := [], onUnmounted := [] })] Method.onMounted 7
      = ({ currentInstance := none, errors := 2, warnings := 3 },
         [(1, { onBeforeMount := [], onMounted := [], onBeforeUpdate := [],
                onUpdated := [], onUnmounted := [] })]) := by
  decide

/-- C8 (amended): with no ambient current instance, every free-function
helper degrades gracefully and performs no registration or binding: the
five lifecycle helpers are silent no-ops (no diagnostic), while
`provide` and `inject` report one diagnostic each — `provide` changes
no dependency table and `inject` returns the supplied default. -/
theorem free_helpers_without_instance (g : Glob) (store : CallbackStore)
    (ctxs : CtxStore) (ctx : Ctx) (chain : List Entry) (k : Nat) (v : JSVal)
    (dflt : Option JSVal) (hg : g.currentInstance = none) :
    (∀ m : Method, ∀ cb : Nat, lifecycleFree g store m cb = (g, store))
    ∧ provideFree g ctxs k v = ({ g with errors := g.errors + 1 }, ctxs)
    ∧ injectFree g ctx chain k dflt = (dflt, { g with errors := g.errors + 1 }) := by
  refine ⟨fun m cb => by simp [lifecycleFree, hg], ?_, ?_⟩
  · simp [provideFree, getCurrentInstance, hg]
  · simp [injectFree, getCurrentInstance, hg]

/-- C8 witness: at a concrete unset-pointer state, `onUnmounted`
no-ops silently, `provide` reports once and binds nothing, `inject`
reports once and returns its default. -/
theorem free_helpers_without_instance_witness :
    lifecycleFree { currentInstance := none, errors := 0, warnings := 0 } []
        Method.onUnmounted 4
      = ({ currentInstance := none, errors := 0, warnings := 0 }, [])
    ∧ provideFree { currentInstance := none, errors := 0, warnings := 0 } [] 9 (JSVal.num 1)
      = ({ currentInstance := none, errors := 1, warnings := 0 }, [])
    ∧ injectFree { currentInstance := none, errors := 0, warnings := 0 } [] [] 9
        (some (JSVal.num 2))
      = (some (JSVal.num 2), { currentInstance := none, errors := 1, warnings := 0 }) := by
  have h := free_helpers_without_instance
      { currentInstance := none, errors := 0, warnings := 0 } [] [] [] [] 9 (JSVal.num 1)
      (some (JSVal.num 2)) rfl
  exact ⟨h.1 Method.onUnmounted 4, h.2.1, h.2.2⟩

end Vuelit
